import Mathlib

/-!
# sqlser: a WHERE-fragment gate in front of a query builder

A shallow embedding of `sqlser.go`.  The Go package wraps a caller-supplied filter
fragment into `SELECT 1 <fragment>`, hands it to the PostgreSQL parser (`pg_query`),
checks the shape of the statement that comes back, walks the filter expression against
a registry of per-column validators and, when nothing objects, attaches the fragment
to a `squirrel.SelectBuilder`.

Conventions of the embedding

* A Go `error` is a message string; a result of type `error` is `Option GoError`
  (`none` is the nil error).
* A Go `(T, error)` result that may also stop with a runtime panic is an `Outcome T`.
* The two external libraries are not modelled: the SQL parser is a function argument
  (`pgParse`) of `Parse`, and the builder is a type argument with its `Where` operation.
  `strings.ToLower` is library code as well and is an argument of `NewWhereParser`.
* The syntax tree is the fragment of `pg_query.Node` that the package inspects.  Every
  access the package makes to a child node goes through the generated nil-safe getters,
  which cannot tell a nil pointer from a node whose variant is unset; both are
  `Node.unset`.  The one place where the package compares a pointer with nil
  (`WhereClause`, the limit, having and into slots) uses `Option`.
* Validator functions are caller policy.  They are total functions here (a nil function
  value in a registry entry is outside the model), and every invocation is recorded in
  the `calls` of a `Run`, in order, so that "the check is (not) invoked" can be stated.
-/

namespace Sqlser

/-! ## Values and results -/

/-- Message carried by a Go `error` value. -/
abbrev GoError := String

/-- Result of a Go function returning `(T, error)` that may also panic. -/
inductive Outcome (α : Type) where
  | ok (val : α)
  | err (e : GoError)
  | panic
  deriving DecidableEq

/-- Kinds of `reflect.Kind`, by their numeric value (`Bool = 1`, `Int32 = 5`, `String = 24`). -/
abbrev ReflectKind := Nat

/-- Dynamic value passed to a validator as `interface{}`: the nil interface, an `int32`
(the `Ival` of an integer literal), a `string`, or a `bool`. -/
inductive Value where
  | nil
  | int32 (i : Int)
  | str (s : String)
  | bool (b : Bool)
  deriving DecidableEq, Repr

/-- Go struct `ColumnInfo`. -/
structure ColumnInfo where
  Name : String
  DBTypeName : String
  Kind : ReflectKind
  deriving DecidableEq, Repr

/-- Go type `ValidatorFunc`. -/
abbrev ValidatorFunc := ColumnInfo → Value → Option GoError

/-- Go struct `Validator`. -/
structure Validator where
  ColumnInfo : ColumnInfo
  ValidatorFunc : ValidatorFunc

/-- Go `map[string]Validator`, as the partial function it denotes. -/
abbrev ValidatorMap := String → Option Validator

/-- Empty map, as `make(map[string]Validator, n)`. -/
def ValidatorMap.empty : ValidatorMap := fun _ => none

/-- Map assignment `m[k] = v`. -/
def ValidatorMap.set (m : ValidatorMap) (k : String) (v : Validator) : ValidatorMap :=
  fun k' => if k' = k then some v else m k'

/-- Go struct `parser`. -/
structure parser where
  validators : ValidatorMap

/-! ## The syntax tree handed back by the SQL parser -/

/-- Enum `pg_query.A_Expr_Kind`. -/
inductive A_Expr_Kind where
  | A_EXPR_KIND_UNDEFINED
  | AEXPR_OP
  | AEXPR_OP_ANY
  | AEXPR_OP_ALL
  | AEXPR_DISTINCT
  | AEXPR_NOT_DISTINCT
  | AEXPR_NULLIF
  | AEXPR_OF
  | AEXPR_IN
  | AEXPR_LIKE
  | AEXPR_ILIKE
  | AEXPR_SIMILAR
  | AEXPR_BETWEEN
  | AEXPR_NOT_BETWEEN
  | AEXPR_BETWEEN_SYM
  | AEXPR_NOT_BETWEEN_SYM
  | AEXPR_PAREN
  deriving DecidableEq, Repr

/-- Enum `pg_query.BoolExprType`. -/
inductive BoolExprType where
  | BOOL_EXPR_TYPE_UNDEFINED
  | AND_EXPR
  | OR_EXPR
  | NOT_EXPR
  deriving DecidableEq, Repr

/-- Expression nodes of `pg_query.Node`.  The variants the package looks at are spelled
out; `SubLink` (a subquery) is kept as a named representative of the rest, and `other`
stands for any remaining variant, tagged with its name. -/
inductive Node where
  | unset
  | BoolExpr (boolop : BoolExprType) (args : List Node)
  | AExpr (kind : A_Expr_Kind) (name : List Node) (lexpr rexpr : Node)
  | ColumnRef (fields : List Node)
  | AConst (val : Node)
  | Integer (ival : Int)
  | Float (str : String)
  | String_ (str : String)
  | Null
  | AStar
  | SubLink (testexpr : Node) (operName : List Node) (subselect : Node)
  | other (variant : String) (children : List Node)

/-- Getter chain `n.GetString_().GetStr()`: the string of a `String_` node, else `""`. -/
def Node.GetString_Str : Node → String
  | .String_ str => str
  | _ => ""

/-- Getter chain `n.GetColumnRef().GetFields()`: the fields of a `ColumnRef` node, else
the empty slice. -/
def Node.GetColumnRefFields : Node → List Node
  | .ColumnRef fields => fields
  | _ => []

/-- Getter chain `n.GetAConst().GetVal()`: the value node of an `AConst`, else nil. -/
def Node.GetAConstVal : Node → Node
  | .AConst val => val
  | _ => .unset

/-- Go struct `pg_query.IntoClause`, reduced to the name of its target relation. -/
structure IntoClause where
  relname : String

/-- Go struct `pg_query.SelectStmt`: the slots the package reads, and the select list. -/
structure SelectStmt where
  DistinctClause : List Node := []
  IntoClause : Option IntoClause := none
  TargetList : List Node := []
  FromClause : List Node := []
  WhereClause : Option Node := none
  GroupClause : List Node := []
  HavingClause : Option Node := none
  WindowClause : List Node := []
  SortClause : List Node := []
  LimitOffset : Option Node := none
  LimitCount : Option Node := none
  LockingClause : List Node := []

/-- Top-level statement node of a `RawStmt`: a selection statement or some other kind of
statement, tagged with its name. -/
inductive StmtNode where
  | select (s : SelectStmt)
  | other (variant : String)

/-- Getter `GetSelectStmt()`: the selection statement, or the nil pointer. -/
def StmtNode.GetSelectStmt : StmtNode → Option SelectStmt
  | .select s => some s
  | .other _ => none

/-- Go struct `pg_query.RawStmt`. -/
structure RawStmt where
  Stmt : StmtNode

/-- Go struct `pg_query.ParseResult`. -/
structure ParseResult where
  Stmts : List RawStmt

/-! ## Error messages of the package -/

/-- Message of `getSelectStmt` when the statement count is not one. -/
def errSeveralStatements : GoError := "several statements"

/-- Message of `getOnlyWhereClause` when a clause other than the filter is present. -/
def errOnlyWhereClause : GoError := "supports select with only 'where' clause"

/-- Message of `getOnlyWhereClause` when the filter clause is absent. -/
def errNoWhereClause : GoError := "no 'where' clause"

/-- Message of `recursiveValidation` for a comparison of a kind other than `AEXPR_OP`. -/
def errUnsupportedAExprOp : GoError := "unsupported AEXPR_OP"

/-! ## Grammar gate -/

/-- Go function `getSelectStmt`. -/
def getSelectStmt (parseResult : ParseResult) : Except GoError (Option SelectStmt) :=
  if h : parseResult.Stmts.length ≠ 1 then
    .error errSeveralStatements
  else
    .ok (parseResult.Stmts.get ⟨0, by omega⟩).Stmt.GetSelectStmt

/-- Go function `getOnlyWhereClause`.  The first thing it does is read a field of
`selectStmt`, so a nil statement stops it with a nil-pointer panic. -/
def getOnlyWhereClause : Option SelectStmt → Outcome Node
  | none => .panic
  | some selectStmt =>
    if selectStmt.DistinctClause.length > 0 ∨
        selectStmt.GroupClause.length > 0 ∨
        selectStmt.LockingClause.length > 0 ∨
        selectStmt.WindowClause.length > 0 ∨
        selectStmt.SortClause.length > 0 ∨
        selectStmt.FromClause.length > 0 ∨
        selectStmt.LimitOffset.isSome ∨
        selectStmt.LimitCount.isSome ∨
        selectStmt.HavingClause.isSome ∨
        selectStmt.IntoClause.isSome then
      .err errOnlyWhereClause
    else
      match selectStmt.WhereClause with
      | none => .err errNoWhereClause
      | some whereClause => .ok whereClause

/-! ## Library string functions -/

/-- Scan of `strings.ReplaceAll` for a non-empty `old`: left to right, non-overlapping.
`skip` counts the characters of a match just replaced that are still to be dropped. -/
def replaceAllChars (old new : List Char) : Nat → List Char → List Char
  | _, [] => []
  | skip + 1, _ :: cs => replaceAllChars old new skip cs
  | 0, c :: cs =>
    if old.isPrefixOf (c :: cs) then
      new ++ replaceAllChars old new (old.length - 1) cs
    else
      c :: replaceAllChars old new 0 cs

/-- Go `strings.ReplaceAll(s, old, new)`.  An empty `old` matches before every
character and at the end.  Go scans the UTF-8 bytes and this scans characters; for
well-formed text the two agree, since an encoded character never straddles a match. -/
def ReplaceAll (s old new : String) : String :=
  if old.data = [] then
    ⟨new.data ++ s.data.flatMap (fun c => c :: new.data)⟩
  else
    ⟨replaceAllChars old.data new.data 0 s.data⟩

/-- Go `strings.Trim(s, cutset)`: drops the leading and trailing characters that occur
in `cutset`. -/
def Trim (s cutset : String) : String :=
  ⟨((s.data.dropWhile (fun c => cutset.data.contains c)).reverse.dropWhile
    (fun c => cutset.data.contains c)).reverse⟩

/-- ASCII case folding, the action of Go `strings.ToLower` on ASCII text. -/
def asciiToLower (s : String) : String :=
  ⟨s.data.map Char.toLower⟩

/-! ## Validator registry -/

/-- Go function `NewWhereParser`.  `ToLower` is `strings.ToLower`; `validators` lists the
entries of the caller's map in the order the `range` loop visits them. -/
def NewWhereParser (ToLower : String → String) (validators : List (String × Validator)) :
    parser :=
  { validators :=
      validators.foldl (fun m kv => m.set (ToLower kv.1) kv.2) ValidatorMap.empty }

/-! ## Expression validator -/

/-- One invocation of a registered `ValidatorFunc`: the registry key it was found under
and the two arguments it received. -/
structure Call where
  field : String
  info : ColumnInfo
  value : Value
  deriving DecidableEq, Repr

/-- What a validation run did: the validator invocations, in order, and the `error` it
returned. -/
structure Run where
  calls : List Call
  err : Option GoError
  deriving DecidableEq, Repr

/-- Go method `parser.validateField`. -/
def validateField (p : parser) (field : String) (val : Value) : Run :=
  match p.validators field with
  | none => ⟨[], none⟩
  | some v => ⟨[⟨field, v.ColumnInfo, val⟩], v.ValidatorFunc v.ColumnInfo val⟩

/-- Body of the loop `for i, f := range columnRef.GetFields()` of `recursiveValidation`,
which both the comparison arm and the column arm run: append the string of segment `i`
and, unless it is the last of `n` segments, a dot. -/
def appendSegment (n : Nat) (field : String) (i : Nat) (f : Node) : String :=
  let field := field ++ f.GetString_Str
  if i < n - 1 then field ++ "." else field

/-- Loop `for i, f := range columnRef.GetFields()` starting from index `i`. -/
def segmentsFrom (n : Nat) : Nat → String → List Node → String
  | _, field, [] => field
  | i, field, f :: fs => segmentsFrom n (i + 1) (appendSegment n field i f) fs

/-- Dotted path of a column reference: the loop run over all `fields` from `""`. -/
def columnPath (fields : List Node) : String :=
  segmentsFrom fields.length 0 "" fields

mutual
/-- Go method `parser.recursiveValidation`. -/
def recursiveValidation (p : parser) : Node → Run
  | .BoolExpr _ args => recursiveValidationArgs p args
  | .AExpr kind _ lexpr rexpr =>
    if kind ≠ .AEXPR_OP then
      ⟨[], some errUnsupportedAExprOp⟩
    else
      let field := columnPath lexpr.GetColumnRefFields
      let val : Value :=
        match rexpr.GetAConstVal with
        | .Integer ival => .int32 ival
        | .String_ str => .str str
        | _ => .nil
      validateField p field val
  | .ColumnRef fields =>
    let field := columnPath fields
    validateField p field (.bool true)
  | _ => ⟨[], none⟩
/-- Loop `for _, arg := range node.GetBoolExpr().GetArgs()` of `recursiveValidation`:
validate each operand, return at the first error. -/
def recursiveValidationArgs (p : parser) : List Node → Run
  | [] => ⟨[], none⟩
  | arg :: rest =>
    let r := recursiveValidation p arg
    match r.err with
    | some err => ⟨r.calls, some err⟩
    | none =>
      let rs := recursiveValidationArgs p rest
      ⟨r.calls ++ rs.calls, rs.err⟩
end

/-- Go method `parser.validateWhereClause`. -/
def validateWhereClause (p : parser) (whereClause : Node) : Run :=
  recursiveValidation p whereClause

/-! ## Top-level parser -/

/-- Go method `parser.Parse`.  `pgParse` is `pg_query.Parse` and `Where` is the
`Where` method of the builder type `β`. -/
def Parse {β : Type} (pgParse : String → Except GoError ParseResult)
    (Where : β → String → β) (p : parser) (query : String) (qb : β) : Outcome β :=
  match pgParse ("SELECT 1 " ++ query) with
  | .error err => .err err
  | .ok parseResult =>
    match getSelectStmt parseResult with
    | .error err => .err err
    | .ok selectStmt =>
      match getOnlyWhereClause selectStmt with
      | .panic => .panic
      | .err err => .err err
      | .ok whereClause =>
        match (validateWhereClause p whereClause).err with
        | some err => .err err
        | none =>
          let query := ReplaceAll query "WHERE" ""
          let query := ReplaceAll query "where" ""
          .ok (Where qb (Trim query " "))

/-! ## The value a comparison hands to the check -/

/-- The `switch aConst.GetVal().GetNode().(type)` of the comparison arm of
`recursiveValidation`, as a function of the right operand: the `int32` of an integer
literal, the string of a string literal, and the nil interface otherwise. -/
def observedValue (rexpr : Node) : Value :=
  match rexpr.GetAConstVal with
  | .Integer ival => .int32 ival
  | .String_ str => .str str
  | _ => .nil

/-! ## Leaves of an expression tree -/

mutual
/-- Leaves of an expression tree: the nodes reached by descending through boolean
combinations only, left to right.  A node that is not a boolean combination is its own
single leaf. -/
def leaves : Node → List Node
  | .BoolExpr _ args => leavesArgs args
  | .unset => [.unset]
  | .AExpr kind name lexpr rexpr => [.AExpr kind name lexpr rexpr]
  | .ColumnRef fields => [.ColumnRef fields]
  | .AConst val => [.AConst val]
  | .Integer ival => [.Integer ival]
  | .Float str => [.Float str]
  | .String_ str => [.String_ str]
  | .Null => [.Null]
  | .AStar => [.AStar]
  | .SubLink testexpr operName subselect => [.SubLink testexpr operName subselect]
  | .other variant children => [.other variant children]
/-- Leaves of a sequence of operands, in order. -/
def leavesArgs : List Node → List Node
  | [] => []
  | arg :: rest => leaves arg ++ leavesArgs rest
end

/-! ## Sample policies, parser answers and builder used in the examples -/

/-- A validator function that rejects every value. -/
def rejectAll : ValidatorFunc := fun _ _ => some "rejected"

/-- Stand-in for `squirrel.SelectBuilder`: the predicates attached so far. -/
structure SelectBuilder where
  WhereParts : List String
  deriving DecidableEq, Repr

/-- Stand-in for `SelectBuilder.Where`: records the predicate after those already
attached. -/
def SelectBuilder.Where (qb : SelectBuilder) (pred : String) : SelectBuilder :=
  ⟨qb.WhereParts ++ [pred]⟩

/-- The select list of `SELECT 1`. -/
def selectOne : List Node := [.other "ResTarget" [.AConst (.Integer 1)]]

/-- Excerpt of `pg_query.Parse`: the trees of the statements used in the examples; any
other text is answered with a syntax error. -/
def pgParseSample (sql : String) : Except GoError ParseResult :=
  if sql = "SELECT 1 WHERE x.y = 1" then
    .ok ⟨[⟨.select
      { TargetList := selectOne
        WhereClause := some (.AExpr .AEXPR_OP [.String_ "="]
          (.ColumnRef [.String_ "x", .String_ "y"]) (.AConst (.Integer 1))) }⟩]⟩
  else if sql = "SELECT 1 WHERE a = 'where'" then
    .ok ⟨[⟨.select
      { TargetList := selectOne
        WhereClause := some (.AExpr .AEXPR_OP [.String_ "="]
          (.ColumnRef [.String_ "a"]) (.AConst (.String_ "where"))) }⟩]⟩
  else if sql = "SELECT 1 LIMIT 10" then
    .ok ⟨[⟨.select
      { TargetList := selectOne
        LimitCount := some (.AConst (.Integer 10)) }⟩]⟩
  else if sql = "SELECT 1 ; SELECT 1;" then
    .ok ⟨[⟨.select { TargetList := selectOne }⟩, ⟨.select { TargetList := selectOne }⟩]⟩
  else if sql = "SELECT 1 Where a = 1" then
    .ok ⟨[⟨.select
      { TargetList := selectOne
        WhereClause := some (.AExpr .AEXPR_OP [.String_ "="]
          (.ColumnRef [.String_ "a"]) (.AConst (.Integer 1))) }⟩]⟩
  else
    .error "syntax error"

/-! ## Kinds of observed values and the kind-matching check of the tests -/

/-- Value of `reflect.Bool`. -/
def reflectBool : ReflectKind := 1

/-- Value of `reflect.Int32`. -/
def reflectInt32 : ReflectKind := 5

/-- Value of `reflect.String`. -/
def reflectString : ReflectKind := 24

/-- Kind of the dynamic type of a value, `reflect.TypeOf(value).Kind()`.  The nil
interface has no dynamic type. -/
def Value.reflectKind : Value → Option ReflectKind
  | .nil => none
  | .int32 _ => some reflectInt32
  | .str _ => some reflectString
  | .bool _ => some reflectBool

/-- Go function `validatorFunc` of the tests: accept exactly when the kind of the column
equals the kind of the value.  For the nil interface the Go function panics inside
`reflect`; a validator is a total function here and that case is answered with the
mismatch error.  No statement below applies this function to the nil value.  The Go
message goes on to name the two kinds; only its fixed part is kept. -/
def validatorFunc : ValidatorFunc := fun columnInfo value =>
  match value.reflectKind with
  | some kind => if columnInfo.Kind = kind then none else some "mismatched types"
  | none => some "mismatched types"

/-! ## Trees of the supported filter sublanguage -/

mutual
/-- Expression trees built from boolean combinations, comparisons of kind `AEXPR_OP`
and bare column references. -/
def isFilterTree : Node → Bool
  | .BoolExpr _ args => areFilterTrees args
  | .AExpr kind _ _ _ => decide (kind = .AEXPR_OP)
  | .ColumnRef _ => true
  | _ => false
/-- Every operand of a sequence is a tree of the supported sublanguage. -/
def areFilterTrees : List Node → Bool
  | [] => true
  | arg :: rest => isFilterTree arg && areFilterTrees rest
end

/-! ## Theorems: grammar gate -/

/-- C3: a selection statement with any of the ten optional clause slots present makes
`getOnlyWhereClause` fail with the unsupported-clause error, with or without a filter
clause, and never with the missing-filter-clause error. -/
theorem getOnlyWhereClause_other_clause (s : SelectStmt)
    (h : s.DistinctClause ≠ [] ∨ s.GroupClause ≠ [] ∨ s.LockingClause ≠ [] ∨
      s.WindowClause ≠ [] ∨ s.SortClause ≠ [] ∨ s.FromClause ≠ [] ∨
      s.LimitOffset ≠ none ∨ s.LimitCount ≠ none ∨ s.HavingClause ≠ none ∨
      s.IntoClause ≠ none) :
    getOnlyWhereClause (some s) = .err errOnlyWhereClause ∧
      getOnlyWhereClause (some s) ≠ .err errNoWhereClause ∧
      ∀ node, getOnlyWhereClause (some s) ≠ .ok node := by
  have hc : s.DistinctClause.length > 0 ∨ s.GroupClause.length > 0 ∨
      s.LockingClause.length > 0 ∨ s.WindowClause.length > 0 ∨
      s.SortClause.length > 0 ∨ s.FromClause.length > 0 ∨
      s.LimitOffset.isSome ∨ s.LimitCount.isSome ∨ s.HavingClause.isSome ∨
      s.IntoClause.isSome := by
    simpa only [gt_iff_lt, List.length_pos, Option.isSome_iff_ne_none] using h
  have hres : getOnlyWhereClause (some s) = .err errOnlyWhereClause := by
    simp only [getOnlyWhereClause]
    rw [if_pos hc]
  refine ⟨hres, ?_, ?_⟩
  · rw [hres]
    intro hne
    injection hne with hmsg
    revert hmsg
    decide
  · intro node
    rw [hres]
    intro hne
    cases hne

/-- C3 witness: the statement parsed from `SELECT 1 LIMIT 10` (a limit count and no
filter clause). -/
theorem getOnlyWhereClause_other_clause_witness :
    getOnlyWhereClause (some { LimitCount := some (.AConst (.Integer 10)) }) =
        .err errOnlyWhereClause ∧
      getOnlyWhereClause (some { LimitCount := some (.AConst (.Integer 10)) }) ≠
        .err errNoWhereClause ∧
      ∀ node, getOnlyWhereClause (some { LimitCount := some (.AConst (.Integer 10)) }) ≠
        .ok node :=
  getOnlyWhereClause_other_clause { LimitCount := some (.AConst (.Integer 10)) }
    (by simp)

/-- C7: a parse result with more than one statement makes `getSelectStmt` fail with the
several-statements error; a parse result with exactly one statement makes it succeed
with that statement's selection statement, so that error is not reported. -/
theorem getSelectStmt_statement_count (parseResult : ParseResult) :
    (1 < parseResult.Stmts.length →
        getSelectStmt parseResult = .error errSeveralStatements) ∧
      (parseResult.Stmts.length = 1 →
        (∃ rawStmt, parseResult.Stmts = [rawStmt] ∧
          getSelectStmt parseResult = .ok rawStmt.Stmt.GetSelectStmt) ∧
        getSelectStmt parseResult ≠ .error errSeveralStatements) := by
  constructor
  · intro h
    have hne : parseResult.Stmts.length ≠ 1 := by omega
    simp only [getSelectStmt, dif_pos hne]
  · intro h
    obtain ⟨rawStmt, hraw⟩ := List.length_eq_one.mp h
    have hres : getSelectStmt parseResult = .ok rawStmt.Stmt.GetSelectStmt := by
      unfold getSelectStmt
      simp [hraw]
    refine ⟨⟨rawStmt, hraw, hres⟩, ?_⟩
    rw [hres]
    intro hne
    cases hne

/-- C7 witness: the two statements parsed from `SELECT 1 ; SELECT 1;`, and a single
selection statement. -/
theorem getSelectStmt_statement_count_witness :
    getSelectStmt ⟨[⟨.select {}⟩, ⟨.select {}⟩]⟩ = .error errSeveralStatements ∧
      getSelectStmt ⟨[⟨.select {}⟩]⟩ ≠ .error errSeveralStatements :=
  ⟨(getSelectStmt_statement_count ⟨[⟨.select {}⟩, ⟨.select {}⟩]⟩).1 (by decide),
    ((getSelectStmt_statement_count ⟨[⟨.select {}⟩]⟩).2 rfl).2⟩

/-- C8: when all ten optional clause slots of a selection statement are absent,
`getOnlyWhereClause` fails with the missing-filter-clause error if the filter clause is
absent, and otherwise returns exactly the filter clause's root node. -/
theorem getOnlyWhereClause_bare (s : SelectStmt)
    (h : s.DistinctClause = [] ∧ s.GroupClause = [] ∧ s.LockingClause = [] ∧
      s.WindowClause = [] ∧ s.SortClause = [] ∧ s.FromClause = [] ∧
      s.LimitOffset = none ∧ s.LimitCount = none ∧ s.HavingClause = none ∧
      s.IntoClause = none) :
    (s.WhereClause = none → getOnlyWhereClause (some s) = .err errNoWhereClause) ∧
      (∀ whereClause, s.WhereClause = some whereClause →
        getOnlyWhereClause (some s) = .ok whereClause) := by
  obtain ⟨h1, h2, h3, h4, h5, h6, h7, h8, h9, h10⟩ := h
  constructor
  · intro hw
    simp [getOnlyWhereClause, h1, h2, h3, h4, h5, h6, h7, h8, h9, h10, hw]
  · intro whereClause hw
    simp [getOnlyWhereClause, h1, h2, h3, h4, h5, h6, h7, h8, h9, h10, hw]

/-- C8 witness: the statement parsed from `SELECT 1` (no filter clause) and the one
parsed from `SELECT 1 WHERE c`. -/
theorem getOnlyWhereClause_bare_witness :
    getOnlyWhereClause (some {}) = .err errNoWhereClause ∧
      getOnlyWhereClause (some { WhereClause := some (.ColumnRef [.String_ "c"]) }) =
        .ok (.ColumnRef [.String_ "c"]) :=
  ⟨(getOnlyWhereClause_bare {} (by simp)).1 rfl,
    (getOnlyWhereClause_bare { WhereClause := some (.ColumnRef [.String_ "c"]) }
      (by simp)).2 _ rfl⟩

/-- C9, as the code has it: a parse result holding exactly one statement that is not a
selection statement passes `getSelectStmt` without any error; what comes back is the nil
selection statement. -/
theorem getSelectStmt_other_statement (variant : String) :
    getSelectStmt ⟨[⟨.other variant⟩]⟩ = .ok none ∧
      ∀ err, getSelectStmt ⟨[⟨.other variant⟩]⟩ ≠ .error err := by
  have hres : getSelectStmt ⟨[⟨.other variant⟩]⟩ = .ok none := rfl
  refine ⟨hres, ?_⟩
  intro err
  rw [hres]
  intro hne
  cases hne

/-- C9 fails as stated: for the single statement of kind `InsertStmt`, `getSelectStmt`
returns no error and `getOnlyWhereClause`, run on its result, returns no error value
either (it stops on the nil statement). -/
theorem gate_insert_statement_no_error_value :
    getSelectStmt ⟨[⟨.other "InsertStmt"⟩]⟩ = .ok none ∧
      getOnlyWhereClause none = .panic ∧
      ¬ ∃ err, getOnlyWhereClause none = .err err := by
  refine ⟨rfl, rfl, ?_⟩
  rintro ⟨err, herr⟩
  cases herr

/-! ## Theorems: expression validator -/

/-- C10: a comparison whose kind is not `AEXPR_OP` fails with the unsupported-operator
error for every registry and invokes no validator; a boolean combination whose first
operand is such a comparison fails in the same way. -/
theorem recursiveValidation_unsupported_kind (p : parser) (kind : A_Expr_Kind)
    (name : List Node) (lexpr rexpr : Node) (boolop : BoolExprType) (rest : List Node)
    (h : kind ≠ .AEXPR_OP) :
    recursiveValidation p (.AExpr kind name lexpr rexpr) =
        ⟨[], some errUnsupportedAExprOp⟩ ∧
      recursiveValidation p (.BoolExpr boolop (.AExpr kind name lexpr rexpr :: rest)) =
        ⟨[], some errUnsupportedAExprOp⟩ := by
  have hleaf : recursiveValidation p (.AExpr kind name lexpr rexpr) =
      ⟨[], some errUnsupportedAExprOp⟩ := by
    simp only [recursiveValidation]
    rw [if_pos h]
  refine ⟨hleaf, ?_⟩
  simp only [recursiveValidation, recursiveValidationArgs]
  rw [if_pos h]

/-- C10 witness: `testDB.test_table.test_data IN (1,2,3) AND
testDB.test_table.other_test_data = 'test'` against the empty registry. -/
theorem recursiveValidation_unsupported_kind_witness :
    recursiveValidation (NewWhereParser asciiToLower [])
        (.AExpr .AEXPR_IN [.String_ "="]
          (.ColumnRef [.String_ "testdb", .String_ "test_table", .String_ "test_data"])
          (.other "List" [.AConst (.Integer 1), .AConst (.Integer 2),
            .AConst (.Integer 3)])) =
        ⟨[], some errUnsupportedAExprOp⟩ ∧
      recursiveValidation (NewWhereParser asciiToLower [])
        (.BoolExpr .AND_EXPR
          (.AExpr .AEXPR_IN [.String_ "="]
            (.ColumnRef [.String_ "testdb", .String_ "test_table", .String_ "test_data"])
            (.other "List" [.AConst (.Integer 1), .AConst (.Integer 2),
              .AConst (.Integer 3)]) ::
          [.AExpr .AEXPR_OP [.String_ "="]
            (.ColumnRef [.String_ "testdb", .String_ "test_table",
              .String_ "other_test_data"])
            (.AConst (.String_ "test"))])) =
        ⟨[], some errUnsupportedAExprOp⟩ :=
  recursiveValidation_unsupported_kind _ .AEXPR_IN _ _ _ .AND_EXPR _ (by decide)

/-- C4, evaluated: a subquery node is accepted by `recursiveValidation` for every
registry, with no error and no validator invoked. -/
theorem recursiveValidation_accepts_subquery (p : parser) (testexpr : Node)
    (operName : List Node) (subselect : Node) :
    recursiveValidation p (.SubLink testexpr operName subselect) = ⟨[], none⟩ := by
  simp only [recursiveValidation]

/-- The operand loop succeeds exactly when its first operand and the rest both do. -/
theorem recursiveValidationArgs_cons_ok (p : parser) (arg : Node) (rest : List Node) :
    (recursiveValidationArgs p (arg :: rest)).err = none ↔
      (recursiveValidation p arg).err = none ∧
        (recursiveValidationArgs p rest).err = none := by
  simp only [recursiveValidationArgs]
  cases h : (recursiveValidation p arg).err with
  | none => simp
  | some err => simp

mutual
/-- Success of `recursiveValidation` on a tree is success on each of its leaves. -/
theorem recursiveValidation_ok_leaves (p : parser) :
    ∀ t : Node, (recursiveValidation p t).err = none ↔
      ∀ leaf ∈ leaves t, (recursiveValidation p leaf).err = none
  | .BoolExpr _ args => by
    have ih := recursiveValidationArgs_ok_leaves p args
    simpa only [recursiveValidation, leaves] using ih
  | .unset => by simp [leaves]
  | .AExpr _ _ _ _ => by simp [leaves]
  | .ColumnRef _ => by simp [leaves]
  | .AConst _ => by simp [leaves]
  | .Integer _ => by simp [leaves]
  | .Float _ => by simp [leaves]
  | .String_ _ => by simp [leaves]
  | .Null => by simp [leaves]
  | .AStar => by simp [leaves]
  | .SubLink _ _ _ => by simp [leaves]
  | .other _ _ => by simp [leaves]
/-- Success of the operand loop is success on each leaf of each operand. -/
theorem recursiveValidationArgs_ok_leaves (p : parser) :
    ∀ args : List Node, (recursiveValidationArgs p args).err = none ↔
      ∀ leaf ∈ leavesArgs args, (recursiveValidation p leaf).err = none
  | [] => by simp [recursiveValidationArgs, leavesArgs]
  | arg :: rest => by
    have iha := recursiveValidation_ok_leaves p arg
    have ihr := recursiveValidationArgs_ok_leaves p rest
    rw [recursiveValidationArgs_cons_ok, iha, ihr]
    simp only [leavesArgs, List.mem_append]
    constructor
    · rintro ⟨h1, h2⟩ leaf (hl | hl)
      · exact h1 leaf hl
      · exact h2 leaf hl
    · intro h
      exact ⟨fun leaf hl => h leaf (Or.inl hl), fun leaf hl => h leaf (Or.inr hl)⟩
end

/-! ## Theorems: registry lookup -/

/-- C2, evaluated: with a rejecting rule registered under `Foo.Bar`, `validateField`
runs the rule for the path `foo.bar` but finds nothing for `FOO.BAR` or `Foo.Bar`:
those two pass with no validator invoked. -/
theorem validateField_lookup_is_exact (val : Value) :
    validateField
        (NewWhereParser asciiToLower [("Foo.Bar", ⟨⟨"Foo.Bar", "VARCHAR", 24⟩, rejectAll⟩)])
        "foo.bar" val =
        ⟨[⟨"foo.bar", ⟨"Foo.Bar", "VARCHAR", 24⟩, val⟩], some "rejected"⟩ ∧
      validateField
        (NewWhereParser asciiToLower [("Foo.Bar", ⟨⟨"Foo.Bar", "VARCHAR", 24⟩, rejectAll⟩)])
        "FOO.BAR" val = ⟨[], none⟩ ∧
      validateField
        (NewWhereParser asciiToLower [("Foo.Bar", ⟨⟨"Foo.Bar", "VARCHAR", 24⟩, rejectAll⟩)])
        "Foo.Bar" val = ⟨[], none⟩ := by
  refine ⟨rfl, rfl, rfl⟩

/-! ## Theorems: top-level parser -/

/-- C1, evaluated: for the fragment `WHERE a = 'where'` and the empty registry, `Parse`
succeeds and attaches `a = ''`; the fragment without its leading keyword, trimmed, is
`a = 'where'`. -/
theorem Parse_rewrites_keyword_in_literal :
    Parse pgParseSample SelectBuilder.Where (NewWhereParser asciiToLower [])
        "WHERE a = 'where'" ⟨[]⟩ = .ok ⟨["a = ''"]⟩ ∧
      Trim " a = 'where'" " " = "a = 'where'" ∧
      "a = ''" ≠ "a = 'where'" := by
  refine ⟨by rfl, by rfl, by decide⟩

/-- C6: `Parse` returns a builder exactly when the SQL parser, `getSelectStmt`,
`getOnlyWhereClause` and `validateWhereClause` all succeed, and the builder is then the
caller's builder with the stripped, trimmed fragment attached by one `Where`; when a
stage returns an error, `Parse` returns that very error and no builder, and the outcome
does not depend on the `Where` operation at all. -/
theorem Parse_all_or_nothing {β : Type} (pgParse : String → Except GoError ParseResult)
    (Where : β → String → β) (p : parser) (query : String) (qb : β) :
    ((∃ b, Parse pgParse Where p query qb = .ok b) ↔
        ∃ parseResult selectStmt whereClause,
          pgParse ("SELECT 1 " ++ query) = .ok parseResult ∧
          getSelectStmt parseResult = .ok selectStmt ∧
          getOnlyWhereClause selectStmt = .ok whereClause ∧
          (validateWhereClause p whereClause).err = none) ∧
      (∀ b, Parse pgParse Where p query qb = .ok b →
        b = Where qb (Trim (ReplaceAll (ReplaceAll query "WHERE" "") "where" "") " ")) ∧
      (∀ err, pgParse ("SELECT 1 " ++ query) = .error err →
        Parse pgParse Where p query qb = .err err) ∧
      (∀ parseResult err, pgParse ("SELECT 1 " ++ query) = .ok parseResult →
        getSelectStmt parseResult = .error err →
        Parse pgParse Where p query qb = .err err) ∧
      (∀ parseResult selectStmt err, pgParse ("SELECT 1 " ++ query) = .ok parseResult →
        getSelectStmt parseResult = .ok selectStmt →
        getOnlyWhereClause selectStmt = .err err →
        Parse pgParse Where p query qb = .err err) ∧
      (∀ parseResult selectStmt whereClause err,
        pgParse ("SELECT 1 " ++ query) = .ok parseResult →
        getSelectStmt parseResult = .ok selectStmt →
        getOnlyWhereClause selectStmt = .ok whereClause →
        (validateWhereClause p whereClause).err = some err →
        Parse pgParse Where p query qb = .err err) ∧
      (∀ Where2 : β → String → β, (∀ b, Parse pgParse Where p query qb ≠ .ok b) →
        Parse pgParse Where2 p query qb = Parse pgParse Where p query qb) := by
  refine ⟨?_, ?_, ?_, ?_, ?_, ?_, ?_⟩
  · constructor
    · rintro ⟨b, hb⟩
      unfold Parse at hb
      cases h1 : pgParse ("SELECT 1 " ++ query) with
      | error e => simp [h1] at hb
      | ok parseResult =>
        cases h2 : getSelectStmt parseResult with
        | error e => simp [h1, h2] at hb
        | ok selectStmt =>
          cases h3 : getOnlyWhereClause selectStmt with
          | panic => simp [h1, h2, h3] at hb
          | err e => simp [h1, h2, h3] at hb
          | ok whereClause =>
            cases h4 : (validateWhereClause p whereClause).err with
            | some e => simp [h1, h2, h3, h4] at hb
            | none => exact ⟨parseResult, selectStmt, whereClause, rfl, h2, h3, h4⟩
    · rintro ⟨parseResult, selectStmt, whereClause, h1, h2, h3, h4⟩
      refine ⟨Where qb (Trim (ReplaceAll (ReplaceAll query "WHERE" "") "where" "") " "), ?_⟩
      simp [Parse, h1, h2, h3, h4]
  · intro b hb
    unfold Parse at hb
    cases h1 : pgParse ("SELECT 1 " ++ query) with
    | error e => simp [h1] at hb
    | ok parseResult =>
      cases h2 : getSelectStmt parseResult with
      | error e => simp [h1, h2] at hb
      | ok selectStmt =>
        cases h3 : getOnlyWhereClause selectStmt with
        | panic => simp [h1, h2, h3] at hb
        | err e => simp [h1, h2, h3] at hb
        | ok whereClause =>
          cases h4 : (validateWhereClause p whereClause).err with
          | some e => simp [h1, h2, h3, h4] at hb
          | none =>
            simp only [h1, h2, h3, h4, Outcome.ok.injEq] at hb
            exact hb.symm
  · intro err h1
    simp [Parse, h1]
  · intro parseResult err h1 h2
    simp [Parse, h1, h2]
  · intro parseResult selectStmt err h1 h2 h3
    simp [Parse, h1, h2, h3]
  · intro parseResult selectStmt whereClause err h1 h2 h3 h4
    simp [Parse, h1, h2, h3, h4]
  · intro Where2 hfail
    cases h1 : pgParse ("SELECT 1 " ++ query) with
    | error e => simp [Parse, h1]
    | ok parseResult =>
      cases h2 : getSelectStmt parseResult with
      | error e => simp [Parse, h1, h2]
      | ok selectStmt =>
        cases h3 : getOnlyWhereClause selectStmt with
        | panic => simp [Parse, h1, h2, h3]
        | err e => simp [Parse, h1, h2, h3]
        | ok whereClause =>
          cases h4 : (validateWhereClause p whereClause).err with
          | some e => simp [Parse, h1, h2, h3, h4]
          | none =>
            exfalso
            refine hfail
              (Where qb (Trim (ReplaceAll (ReplaceAll query "WHERE" "") "where" "") " ")) ?_
            simp [Parse, h1, h2, h3, h4]

/-- C6 witness: the fragment `LIMIT 10` passes the SQL parser and `getSelectStmt`, is
stopped by `getOnlyWhereClause`, and `Parse` returns that error. -/
theorem Parse_all_or_nothing_witness :
    Parse pgParseSample SelectBuilder.Where (NewWhereParser asciiToLower []) "LIMIT 10"
      ⟨[]⟩ = .err errOnlyWhereClause :=
  (Parse_all_or_nothing pgParseSample SelectBuilder.Where (NewWhereParser asciiToLower [])
    "LIMIT 10" ⟨[]⟩).2.2.2.2.1 _ _ _ rfl rfl rfl

/-! ## Theorems: what each arm of the validator does -/

/-- Lookup miss: `validateField` succeeds and invokes nothing. -/
theorem validateField_unregistered (p : parser) (field : String) (val : Value)
    (h : p.validators field = none) : validateField p field val = ⟨[], none⟩ := by
  simp only [validateField, h]

/-- Lookup hit: `validateField` invokes the rule once and returns what it returns. -/
theorem validateField_registered (p : parser) (field : String) (val : Value)
    (rule : Validator) (h : p.validators field = some rule) :
    validateField p field val =
      ⟨[⟨field, rule.ColumnInfo, val⟩], rule.ValidatorFunc rule.ColumnInfo val⟩ := by
  simp only [validateField, h]

/-- A comparison of kind `AEXPR_OP` against an integer literal validates the left
column path with the integer. -/
theorem recursiveValidation_integer_literal (p : parser) (name : List Node)
    (lexpr : Node) (ival : Int) :
    recursiveValidation p (.AExpr .AEXPR_OP name lexpr (.AConst (.Integer ival))) =
      validateField p (columnPath lexpr.GetColumnRefFields) (.int32 ival) := by
  simp [recursiveValidation, Node.GetAConstVal]

/-- A comparison of kind `AEXPR_OP` against a string literal validates the left column
path with the string. -/
theorem recursiveValidation_string_literal (p : parser) (name : List Node)
    (lexpr : Node) (str : String) :
    recursiveValidation p (.AExpr .AEXPR_OP name lexpr (.AConst (.String_ str))) =
      validateField p (columnPath lexpr.GetColumnRefFields) (.str str) := by
  simp [recursiveValidation, Node.GetAConstVal]

/-- A bare column reference validates its column path with the boolean `true`. -/
theorem recursiveValidation_column (p : parser) (fields : List Node) :
    recursiveValidation p (.ColumnRef fields) =
      validateField p (columnPath fields) (.bool true) := by
  simp [recursiveValidation]

/-! ## Theorems: type gate and registry opt-in -/

/-- C11: with a check that accepts exactly when the column's kind equals the kind of
the observed value, on a registered column a comparison with an integer literal
succeeds iff the kind is `Int32`, a comparison with a string literal succeeds iff the
kind is `String`, and the bare column succeeds iff the kind is `Bool`. -/
theorem type_gate (p : parser) (check : ValidatorFunc) (info : ColumnInfo)
    (fields : List Node)
    (hcheck : ∀ columnInfo value kind, value.reflectKind = some kind →
      (check columnInfo value = none ↔ columnInfo.Kind = kind))
    (hreg : p.validators (columnPath fields) = some ⟨info, check⟩) :
    (∀ name ival,
        (recursiveValidation p
          (.AExpr .AEXPR_OP name (.ColumnRef fields) (.AConst (.Integer ival)))).err = none ↔
        info.Kind = reflectInt32) ∧
      (∀ name str,
        (recursiveValidation p
          (.AExpr .AEXPR_OP name (.ColumnRef fields) (.AConst (.String_ str)))).err = none ↔
        info.Kind = reflectString) ∧
      ((recursiveValidation p (.ColumnRef fields)).err = none ↔
        info.Kind = reflectBool) := by
  refine ⟨?_, ?_, ?_⟩
  · intro name ival
    rw [recursiveValidation_integer_literal, Node.GetColumnRefFields,
      validateField_registered p _ _ _ hreg]
    exact hcheck info (.int32 ival) reflectInt32 rfl
  · intro name str
    rw [recursiveValidation_string_literal, Node.GetColumnRefFields,
      validateField_registered p _ _ _ hreg]
    exact hcheck info (.str str) reflectString rfl
  · rw [recursiveValidation_column, validateField_registered p _ _ _ hreg]
    exact hcheck info (.bool true) reflectBool rfl

/-- C11 witness: Scenario B, a column `t.c` of kind `String` guarded by the
kind-matching check of the tests: `t.c = 5` is rejected, `t.c = 'x'` passes, and the
bare `t.c` is rejected. -/
theorem type_gate_witness :
    (recursiveValidation
        (NewWhereParser asciiToLower
          [("t.c", ⟨⟨"t.c", "VARCHAR", reflectString⟩, validatorFunc⟩)])
        (.AExpr .AEXPR_OP [.String_ "="] (.ColumnRef [.String_ "t", .String_ "c"])
          (.AConst (.Integer 5)))).err ≠ none ∧
      (recursiveValidation
        (NewWhereParser asciiToLower
          [("t.c", ⟨⟨"t.c", "VARCHAR", reflectString⟩, validatorFunc⟩)])
        (.AExpr .AEXPR_OP [.String_ "="] (.ColumnRef [.String_ "t", .String_ "c"])
          (.AConst (.String_ "x")))).err = none ∧
      (recursiveValidation
        (NewWhereParser asciiToLower
          [("t.c", ⟨⟨"t.c", "VARCHAR", reflectString⟩, validatorFunc⟩)])
        (.ColumnRef [.String_ "t", .String_ "c"])).err ≠ none :=
  have gate := type_gate
    (NewWhereParser asciiToLower [("t.c", ⟨⟨"t.c", "VARCHAR", reflectString⟩, validatorFunc⟩)])
    validatorFunc ⟨"t.c", "VARCHAR", reflectString⟩ [.String_ "t", .String_ "c"]
    (by
      intro columnInfo value kind hkind
      simp [validatorFunc, hkind])
    rfl
  ⟨fun h => absurd ((gate.1 _ _).mp h) (by decide), (gate.2.1 _ _).mpr rfl,
    fun h => absurd (gate.2.2.mp h) (by decide)⟩

mutual
/-- With no rule registered at all, every tree of the supported sublanguage validates
and nothing is invoked. -/
theorem recursiveValidation_no_rules (p : parser) (hp : ∀ field, p.validators field = none) :
    ∀ t : Node, isFilterTree t = true → recursiveValidation p t = ⟨[], none⟩
  | .BoolExpr _ args, h => by
    have ih := recursiveValidationArgs_no_rules p hp args (by simpa [isFilterTree] using h)
    simpa only [recursiveValidation] using ih
  | .AExpr kind _ _ _, h => by
    have hk : kind = .AEXPR_OP := by simpa [isFilterTree] using h
    subst hk
    simp [recursiveValidation, validateField, hp]
  | .ColumnRef _, _ => by simp [recursiveValidation, validateField, hp]
  | .unset, h => by simp [isFilterTree] at h
  | .AConst _, h => by simp [isFilterTree] at h
  | .Integer _, h => by simp [isFilterTree] at h
  | .Float _, h => by simp [isFilterTree] at h
  | .String_ _, h => by simp [isFilterTree] at h
  | .Null, h => by simp [isFilterTree] at h
  | .AStar, h => by simp [isFilterTree] at h
  | .SubLink _ _ _, h => by simp [isFilterTree] at h
  | .other _ _, h => by simp [isFilterTree] at h
/-- With no rule registered at all, the operand loop over trees of the supported
sublanguage succeeds and nothing is invoked. -/
theorem recursiveValidationArgs_no_rules (p : parser)
    (hp : ∀ field, p.validators field = none) :
    ∀ args : List Node, areFilterTrees args = true →
      recursiveValidationArgs p args = ⟨[], none⟩
  | [], _ => by simp [recursiveValidationArgs]
  | arg :: rest, h => by
    have hboth : isFilterTree arg = true ∧ areFilterTrees rest = true := by
      simpa [areFilterTrees] using h
    have iha := recursiveValidation_no_rules p hp arg hboth.1
    have ihr := recursiveValidationArgs_no_rules p hp rest hboth.2
    simp [recursiveValidationArgs, iha, ihr]
end

/-- C12: a column name without an entry in the registry makes `validateField` succeed
with no check invoked; and with an empty registry `recursiveValidation` succeeds, with
no check invoked, on every tree built from boolean combinations, plain-operator
comparisons and bare column references. -/
theorem registry_opt_in (p : parser) :
    (∀ field val, p.validators field = none → validateField p field val = ⟨[], none⟩) ∧
      (p.validators = ValidatorMap.empty →
        ∀ t, isFilterTree t = true → recursiveValidation p t = ⟨[], none⟩) := by
  refine ⟨fun field val h => validateField_unregistered p field val h, ?_⟩
  intro hempty t ht
  refine recursiveValidation_no_rules p ?_ t ht
  intro field
  rw [hempty]
  rfl

/-- C12 witness: the parser built from no rules, on
`testDB.test_table.test_data = 'test' AND (x.y > 1 OR z)`. -/
theorem registry_opt_in_witness :
    validateField (NewWhereParser asciiToLower []) "testdb.test_table.test_data"
        (.str "test") = ⟨[], none⟩ ∧
      recursiveValidation (NewWhereParser asciiToLower [])
        (.BoolExpr .AND_EXPR
          [.AExpr .AEXPR_OP [.String_ "="]
              (.ColumnRef [.String_ "testdb", .String_ "test_table", .String_ "test_data"])
              (.AConst (.String_ "test")),
            .BoolExpr .OR_EXPR
              [.AExpr .AEXPR_OP [.String_ ">"] (.ColumnRef [.String_ "x", .String_ "y"])
                  (.AConst (.Integer 1)),
                .ColumnRef [.String_ "z"]]]) = ⟨[], none⟩ :=
  ⟨(registry_opt_in (NewWhereParser asciiToLower [])).1 _ _ rfl,
    (registry_opt_in (NewWhereParser asciiToLower [])).2 rfl _ rfl⟩

/-! ## Theorems: keyword stripping and registry construction -/

/-- C13, evaluated: for the fragment `Where a = 1` and the empty registry, `Parse`
succeeds and attaches `Where a = 1`, keyword included; the body alone is `a = 1`. -/
theorem Parse_keeps_mixed_case_keyword :
    Parse pgParseSample SelectBuilder.Where (NewWhereParser asciiToLower [])
        "Where a = 1" ⟨[]⟩ = .ok ⟨["Where a = 1"]⟩ ∧
      Trim "a = 1" " " = "a = 1" ∧
      "Where a = 1" ≠ "a = 1" := by
  refine ⟨by rfl, by rfl, by decide⟩

/-- Visiting one more entry assigns its folded key in the registry built so far. -/
theorem NewWhereParser_append_entry (ToLower : String → String)
    (validators : List (String × Validator)) (kv : String × Validator) :
    (NewWhereParser ToLower (validators ++ [kv])).validators =
      (NewWhereParser ToLower validators).validators.set (ToLower kv.1) kv.2 := by
  simp [NewWhereParser, List.foldl_append]

/-- Every entry of the built registry was supplied under a key that folds to its key. -/
theorem NewWhereParser_entry_origin (ToLower : String → String)
    (validators : List (String × Validator)) :
    ∀ k v, (NewWhereParser ToLower validators).validators k = some v →
      ∃ kv ∈ validators, ToLower kv.1 = k ∧ kv.2 = v := by
  induction validators using List.reverseRecOn with
  | nil =>
    intro k v h
    simp [NewWhereParser, ValidatorMap.empty] at h
  | append_singleton l a ih =>
    intro k v h
    rw [NewWhereParser_append_entry] at h
    simp only [ValidatorMap.set] at h
    by_cases hk : k = ToLower a.1
    · rw [if_pos hk] at h
      refine ⟨a, by simp, hk.symm, ?_⟩
      exact Option.some.inj h
    · rw [if_neg hk] at h
      obtain ⟨kv, hmem, hkey, hval⟩ := ih k v h
      exact ⟨kv, by simp [hmem], hkey, hval⟩

/-- Every supplied key is present, folded, in the built registry. -/
theorem NewWhereParser_key_present (ToLower : String → String)
    (validators : List (String × Validator)) :
    ∀ kv ∈ validators, ∃ v, (NewWhereParser ToLower validators).validators (ToLower kv.1) =
      some v := by
  induction validators using List.reverseRecOn with
  | nil =>
    intro kv hmem
    simp at hmem
  | append_singleton l a ih =>
    intro kv hmem
    rw [NewWhereParser_append_entry]
    simp only [ValidatorMap.set]
    by_cases hk : ToLower kv.1 = ToLower a.1
    · exact ⟨a.2, by rw [if_pos hk]⟩
    · rw [if_neg hk]
      have hl : kv ∈ l := by
        rcases List.mem_append.mp hmem with h | h
        · exact h
        · have hkv : kv = a := by simpa using h
          exact absurd (by rw [hkv]) hk
      exact ih kv hl

/-- When the folded keys are pairwise distinct, every supplied rule sits under its
folded key. -/
theorem NewWhereParser_distinct_keys (ToLower : String → String)
    (validators : List (String × Validator)) :
    (validators.map (fun kv => ToLower kv.1)).Nodup →
      ∀ kv ∈ validators,
        (NewWhereParser ToLower validators).validators (ToLower kv.1) = some kv.2 := by
  induction validators using List.reverseRecOn with
  | nil =>
    intro _ kv hmem
    simp at hmem
  | append_singleton l a ih =>
    intro hnodup kv hmem
    rw [List.map_append, List.nodup_append] at hnodup
    obtain ⟨hl, _, hdisj⟩ := hnodup
    rw [NewWhereParser_append_entry]
    simp only [ValidatorMap.set]
    rcases List.mem_append.mp hmem with h | h
    · have hne : ToLower kv.1 ≠ ToLower a.1 := by
        intro heq
        have h1 : ToLower kv.1 ∈ l.map (fun kv => ToLower kv.1) :=
          List.mem_map.mpr ⟨kv, h, rfl⟩
        have h2 : ToLower kv.1 ∈ [a].map (fun kv => ToLower kv.1) := by
          simp [heq]
        exact hdisj h1 h2
      rw [if_neg hne]
      exact ih hl kv h
    · have hkv : kv = a := by simpa using h
      rw [hkv, if_pos rfl]

/-- C14: the registry built by `NewWhereParser` has exactly the folded keys of the rule
set; every key maps to a rule that was supplied under a key folding to it (so on a
collision, to one of the colliding rules); when the folded keys are pairwise distinct
each maps to the rule supplied under the original key; no rules give the empty
registry. -/
theorem NewWhereParser_folds_keys (ToLower : String → String)
    (validators : List (String × Validator)) :
    (∀ k, (∃ v, (NewWhereParser ToLower validators).validators k = some v) ↔
        ∃ kv ∈ validators, ToLower kv.1 = k) ∧
      (∀ k v, (NewWhereParser ToLower validators).validators k = some v →
        ∃ kv ∈ validators, ToLower kv.1 = k ∧ kv.2 = v) ∧
      ((validators.map (fun kv => ToLower kv.1)).Nodup →
        ∀ kv ∈ validators,
          (NewWhereParser ToLower validators).validators (ToLower kv.1) = some kv.2) ∧
      (NewWhereParser ToLower []).validators = ValidatorMap.empty := by
  refine ⟨?_, NewWhereParser_entry_origin ToLower validators,
    NewWhereParser_distinct_keys ToLower validators, rfl⟩
  intro k
  constructor
  · rintro ⟨v, hv⟩
    obtain ⟨kv, hmem, hkey, _⟩ := NewWhereParser_entry_origin ToLower validators k v hv
    exact ⟨kv, hmem, hkey⟩
  · rintro ⟨kv, hmem, hkey⟩
    rw [← hkey]
    exact NewWhereParser_key_present ToLower validators kv hmem

/-- C14 witness: the rule set of test `TT #1`; the rule supplied under `Foo.Bar.Beta`
sits under `foo.bar.beta`. -/
theorem NewWhereParser_folds_keys_witness :
    (NewWhereParser asciiToLower
      [("Foo.Bar.Beta", ⟨⟨"Foo.Bar.Beta", "SMALLINT", reflectInt32⟩, validatorFunc⟩),
        ("Alpha.Bar", ⟨⟨"Alpha.Bar", "VARCHAR", reflectString⟩, validatorFunc⟩)]).validators
      "foo.bar.beta" =
      some ⟨⟨"Foo.Bar.Beta", "SMALLINT", reflectInt32⟩, validatorFunc⟩ :=
  (NewWhereParser_folds_keys asciiToLower
    [("Foo.Bar.Beta", ⟨⟨"Foo.Bar.Beta", "SMALLINT", reflectInt32⟩, validatorFunc⟩),
      ("Alpha.Bar", ⟨⟨"Alpha.Bar", "VARCHAR", reflectString⟩, validatorFunc⟩)]).2.2.1
    (by decide)
    ("Foo.Bar.Beta", ⟨⟨"Foo.Bar.Beta", "SMALLINT", reflectInt32⟩, validatorFunc⟩)
    (by simp)

/-! ## Theorems: order of validation in a boolean combination -/

/-- When every operand succeeds, the operand loop succeeds and has invoked the checks
of all operands, in order. -/
theorem recursiveValidationArgs_all_ok (p : parser) (args : List Node)
    (hok : ∀ arg ∈ args, (recursiveValidation p arg).err = none) :
    recursiveValidationArgs p args =
      ⟨args.flatMap (fun arg => (recursiveValidation p arg).calls), none⟩ := by
  induction args with
  | nil => simp [recursiveValidationArgs]
  | cons arg rest ih =>
    have harg := hok arg (by simp)
    have hrest := ih (fun a ha => hok a (by simp [ha]))
    simp [recursiveValidationArgs, harg, hrest]

/-- When the operands before `arg` succeed and `arg` fails, the operand loop returns the
error of `arg` and has invoked the checks of the operands up to `arg` only. -/
theorem recursiveValidationArgs_first_failure (p : parser) (before : List Node)
    (arg : Node) (after : List Node) (err : GoError)
    (hok : ∀ a ∈ before, (recursiveValidation p a).err = none)
    (hfail : (recursiveValidation p arg).err = some err) :
    recursiveValidationArgs p (before ++ arg :: after) =
      ⟨before.flatMap (fun a => (recursiveValidation p a).calls) ++
        (recursiveValidation p arg).calls, some err⟩ := by
  induction before with
  | nil => simp [recursiveValidationArgs, hfail]
  | cons b rest ih =>
    have hb := hok b (by simp)
    have hrest := ih (fun a ha => hok a (by simp [ha]))
    simp [recursiveValidationArgs, hb, hrest]

/-- C15: a boolean combination validates its operands from left to right.  If an
operand fails after all operands before it succeeded, the result is that operand's error
and the checks invoked are those of the operands up to it, none of any operand to its
right; if every operand succeeds the result is success. -/
theorem recursiveValidation_short_circuit (p : parser) (boolop : BoolExprType) :
    (∀ (before : List Node) (arg : Node) (after : List Node) (err : GoError),
        (∀ a ∈ before, (recursiveValidation p a).err = none) →
        (recursiveValidation p arg).err = some err →
        recursiveValidation p (.BoolExpr boolop (before ++ arg :: after)) =
          ⟨before.flatMap (fun a => (recursiveValidation p a).calls) ++
            (recursiveValidation p arg).calls, some err⟩) ∧
      (∀ args : List Node, (∀ a ∈ args, (recursiveValidation p a).err = none) →
        recursiveValidation p (.BoolExpr boolop args) =
          ⟨args.flatMap (fun a => (recursiveValidation p a).calls), none⟩) := by
  constructor
  · intro before arg after err hok hfail
    simp only [recursiveValidation]
    exact recursiveValidationArgs_first_failure p before arg after err hok hfail
  · intro args hok
    simp only [recursiveValidation]
    exact recursiveValidationArgs_all_ok p args hok

/-- C15 witness: `a AND b AND c` where `a` is accepted and `b` and `c` are rejected:
the result is the error of `b`, after the checks of `a` and `b`; `c` is not looked at. -/
theorem recursiveValidation_short_circuit_witness :
    recursiveValidation
      (NewWhereParser asciiToLower
        [("a", ⟨⟨"a", "BOOLEAN", reflectBool⟩, validatorFunc⟩),
          ("b", ⟨⟨"b", "VARCHAR", reflectString⟩, validatorFunc⟩),
          ("c", ⟨⟨"c", "VARCHAR", reflectString⟩, rejectAll⟩)])
      (.BoolExpr .AND_EXPR
        ([.ColumnRef [.String_ "a"]] ++ .ColumnRef [.String_ "b"] ::
          [.ColumnRef [.String_ "c"]])) =
      ⟨[⟨"a", ⟨"a", "BOOLEAN", reflectBool⟩, .bool true⟩,
        ⟨"b", ⟨"b", "VARCHAR", reflectString⟩, .bool true⟩], some "mismatched types"⟩ :=
  (recursiveValidation_short_circuit
    (NewWhereParser asciiToLower
      [("a", ⟨⟨"a", "BOOLEAN", reflectBool⟩, validatorFunc⟩),
        ("b", ⟨⟨"b", "VARCHAR", reflectString⟩, validatorFunc⟩),
        ("c", ⟨⟨"c", "VARCHAR", reflectString⟩, rejectAll⟩)])
    .AND_EXPR).1 [.ColumnRef [.String_ "a"]] (.ColumnRef [.String_ "b"])
    [.ColumnRef [.String_ "c"]] "mismatched types" (by decide) rfl

/-! ## Theorems: column paths, comparisons and bare columns -/

/-- The segment loop over identifier segments builds the dot-separated path: run from
index `i` on the last `segs.length + 1` of `n` segments, it extends `field` the way
`String.intercalate` does. -/
theorem segmentsFrom_strings (n : Nat) :
    ∀ (segs : List String) (seg : String) (i : Nat) (field : String),
      i + segs.length + 1 = n →
      segmentsFrom n i field ((seg :: segs).map .String_) =
        String.intercalate.go (field ++ seg) "." segs
  | [], seg, i, field, h => by
    have hlast : ¬ i < n - 1 := by simp at h; omega
    simp [segmentsFrom, appendSegment, Node.GetString_Str, hlast, String.intercalate.go]
  | next :: rest, seg, i, field, h => by
    have hmore : i < n - 1 := by simp at h; omega
    have ih := segmentsFrom_strings n rest next (i + 1) (field ++ seg ++ ".")
      (by simp at h ⊢; omega)
    simp only [List.map_cons] at ih ⊢
    simp only [segmentsFrom, appendSegment, Node.GetString_Str, if_pos hmore,
      String.intercalate.go]
    exact ih

/-- The path of a column reference made of identifier segments is the segments joined
with dots. -/
theorem columnPath_strings (segs : List String) :
    columnPath (segs.map .String_) = ".".intercalate segs := by
  cases segs with
  | nil => rfl
  | cons seg rest =>
    have h := segmentsFrom_strings (rest.length + 1) rest seg 0 "" (by omega)
    simp only [String.empty_append] at h
    simpa [columnPath, String.intercalate] using h

/-- C16: a plain-operator comparison whose left operand is a column path looks the
column up under its segments joined with dots; a rule found there is invoked once with
its descriptor and the integer or string of the literal, and its answer is the result;
with no rule the result is success. -/
theorem comparison_validates_dotted_column (p : parser) (name : List Node)
    (segs : List String) :
    columnPath (segs.map .String_) = ".".intercalate segs ∧
      (∀ rule, p.validators (".".intercalate segs) = some rule →
        (∀ ival, recursiveValidation p
            (.AExpr .AEXPR_OP name (.ColumnRef (segs.map .String_))
              (.AConst (.Integer ival))) =
            ⟨[⟨".".intercalate segs, rule.ColumnInfo, .int32 ival⟩],
              rule.ValidatorFunc rule.ColumnInfo (.int32 ival)⟩) ∧
          (∀ str, recursiveValidation p
            (.AExpr .AEXPR_OP name (.ColumnRef (segs.map .String_))
              (.AConst (.String_ str))) =
            ⟨[⟨".".intercalate segs, rule.ColumnInfo, .str str⟩],
              rule.ValidatorFunc rule.ColumnInfo (.str str)⟩)) ∧
      (p.validators (".".intercalate segs) = none →
        ∀ rexpr, recursiveValidation p
          (.AExpr .AEXPR_OP name (.ColumnRef (segs.map .String_)) rexpr) = ⟨[], none⟩) := by
  refine ⟨columnPath_strings segs, ?_, ?_⟩
  · intro rule hrule
    constructor
    · intro ival
      rw [recursiveValidation_integer_literal, Node.GetColumnRefFields,
        columnPath_strings, validateField_registered p _ _ rule hrule]
    · intro str
      rw [recursiveValidation_string_literal, Node.GetColumnRefFields,
        columnPath_strings, validateField_registered p _ _ rule hrule]
  · intro hnone rexpr
    simp [recursiveValidation, Node.GetColumnRefFields, columnPath_strings,
      validateField, hnone]

/-- C16 witness: Scenario B, `t.c = 5` with `t.c` registered as a `String` column under
the kind-matching check: the check is invoked with the integer 5 and its mismatch error
is the result. -/
theorem comparison_validates_dotted_column_witness :
    recursiveValidation
      (NewWhereParser asciiToLower
        [("t.c", ⟨⟨"t.c", "VARCHAR", reflectString⟩, validatorFunc⟩)])
      (.AExpr .AEXPR_OP [.String_ "="] (.ColumnRef (["t", "c"].map .String_))
        (.AConst (.Integer 5))) =
      ⟨[⟨"t.c", ⟨"t.c", "VARCHAR", reflectString⟩, .int32 5⟩], some "mismatched types"⟩ :=
  ((comparison_validates_dotted_column
    (NewWhereParser asciiToLower [("t.c", ⟨⟨"t.c", "VARCHAR", reflectString⟩, validatorFunc⟩)])
    [.String_ "="] ["t", "c"]).2.1
    ⟨⟨"t.c", "VARCHAR", reflectString⟩, validatorFunc⟩ rfl).1 5

/-- C17 fails as stated: with `t.c` registered under a check that rejects everything,
the comparison `t.c = 1.5` (a float literal) does not pass: the check is invoked with
the nil value and its rejection is the result. -/
theorem comparison_float_literal_rejected :
    recursiveValidation
      (NewWhereParser asciiToLower [("t.c", ⟨⟨"t.c", "VARCHAR", reflectString⟩, rejectAll⟩)])
      (.AExpr .AEXPR_OP [.String_ "="] (.ColumnRef [.String_ "t", .String_ "c"])
        (.AConst (.Float "1.5"))) =
      ⟨[⟨"t.c", ⟨"t.c", "VARCHAR", reflectString⟩, .nil⟩], some "rejected"⟩ ∧
      (recursiveValidation
        (NewWhereParser asciiToLower [("t.c", ⟨⟨"t.c", "VARCHAR", reflectString⟩, rejectAll⟩)])
        (.AExpr .AEXPR_OP [.String_ "="] (.ColumnRef [.String_ "t", .String_ "c"])
          (.AConst (.Float "1.5")))).err ≠ none := by
  refine ⟨rfl, by decide⟩

/-- C17, as the code has it: for a plain-operator comparison on a registered column
whose right operand is neither an integer nor a string literal, the observed value is
the nil value and the column's check is invoked with it; the result is what the check
answers, so validation passes exactly when the check accepts the nil value. -/
theorem comparison_other_literal_checks_nil (p : parser) (name fields : List Node)
    (rexpr : Node) (rule : Validator)
    (hint : ∀ ival, rexpr.GetAConstVal ≠ .Integer ival)
    (hstr : ∀ str, rexpr.GetAConstVal ≠ .String_ str)
    (hreg : p.validators (columnPath fields) = some rule) :
    recursiveValidation p (.AExpr .AEXPR_OP name (.ColumnRef fields) rexpr) =
        ⟨[⟨columnPath fields, rule.ColumnInfo, .nil⟩],
          rule.ValidatorFunc rule.ColumnInfo .nil⟩ ∧
      ((recursiveValidation p (.AExpr .AEXPR_OP name (.ColumnRef fields) rexpr)).err = none ↔
        rule.ValidatorFunc rule.ColumnInfo .nil = none) := by
  have hres : recursiveValidation p (.AExpr .AEXPR_OP name (.ColumnRef fields) rexpr) =
      ⟨[⟨columnPath fields, rule.ColumnInfo, .nil⟩],
        rule.ValidatorFunc rule.ColumnInfo .nil⟩ := by
    rw [← validateField_registered p _ _ rule hreg]
    cases hval : rexpr.GetAConstVal with
    | Integer ival => exact absurd hval (hint ival)
    | String_ str => exact absurd hval (hstr str)
    | unset => simp [recursiveValidation, Node.GetColumnRefFields, hval]
    | BoolExpr _ _ => simp [recursiveValidation, Node.GetColumnRefFields, hval]
    | AExpr _ _ _ _ => simp [recursiveValidation, Node.GetColumnRefFields, hval]
    | ColumnRef _ => simp [recursiveValidation, Node.GetColumnRefFields, hval]
    | AConst _ => simp [recursiveValidation, Node.GetColumnRefFields, hval]
    | Float _ => simp [recursiveValidation, Node.GetColumnRefFields, hval]
    | Null => simp [recursiveValidation, Node.GetColumnRefFields, hval]
    | AStar => simp [recursiveValidation, Node.GetColumnRefFields, hval]
    | SubLink _ _ _ => simp [recursiveValidation, Node.GetColumnRefFields, hval]
    | other _ _ => simp [recursiveValidation, Node.GetColumnRefFields, hval]
  refine ⟨hres, ?_⟩
  rw [hres]

/-- C17 witness: `t.c = NULL` with `t.c` registered under a check that rejects
everything. -/
theorem comparison_other_literal_checks_nil_witness :
    recursiveValidation
      (NewWhereParser asciiToLower [("t.c", ⟨⟨"t.c", "VARCHAR", reflectString⟩, rejectAll⟩)])
      (.AExpr .AEXPR_OP [.String_ "="] (.ColumnRef [.String_ "t", .String_ "c"])
        (.AConst .Null)) =
      ⟨[⟨"t.c", ⟨"t.c", "VARCHAR", reflectString⟩, .nil⟩], some "rejected"⟩ :=
  (comparison_other_literal_checks_nil
    (NewWhereParser asciiToLower [("t.c", ⟨⟨"t.c", "VARCHAR", reflectString⟩, rejectAll⟩)])
    [.String_ "="] [.String_ "t", .String_ "c"] (.AConst .Null)
    ⟨⟨"t.c", "VARCHAR", reflectString⟩, rejectAll⟩
    (by intro ival h; cases h) (by intro str h; cases h) rfl).1

/-- C18: a bare column reference looks its dotted path up; a rule found there is invoked
once with its descriptor and the boolean `true`, and its answer is the result; with no
rule the result is success. -/
theorem bare_column_validates_true (p : parser) (segs : List String) :
    (∀ rule, p.validators (".".intercalate segs) = some rule →
        recursiveValidation p (.ColumnRef (segs.map .String_)) =
          ⟨[⟨".".intercalate segs, rule.ColumnInfo, .bool true⟩],
            rule.ValidatorFunc rule.ColumnInfo (.bool true)⟩) ∧
      (p.validators (".".intercalate segs) = none →
        recursiveValidation p (.ColumnRef (segs.map .String_)) = ⟨[], none⟩) := by
  constructor
  · intro rule hrule
    rw [recursiveValidation_column, columnPath_strings,
      validateField_registered p _ _ rule hrule]
  · intro hnone
    rw [recursiveValidation_column, columnPath_strings,
      validateField_unregistered p _ _ hnone]

/-- C18 witness: test `Boolean column's type`, the bare column
`testdb.test_table.test_data` registered with kind `Bool` under the kind-matching
check, which is invoked with `true` and accepts. -/
theorem bare_column_validates_true_witness :
    recursiveValidation
      (NewWhereParser asciiToLower
        [("testDB.test_table.test_data",
          ⟨⟨"testDB.test_table.test_data", "BOOLEAN", reflectBool⟩, validatorFunc⟩)])
      (.ColumnRef (["testdb", "test_table", "test_data"].map .String_)) =
      ⟨[⟨"testdb.test_table.test_data",
          ⟨"testDB.test_table.test_data", "BOOLEAN", reflectBool⟩, .bool true⟩], none⟩ :=
  (bare_column_validates_true
    (NewWhereParser asciiToLower
      [("testDB.test_table.test_data",
        ⟨⟨"testDB.test_table.test_data", "BOOLEAN", reflectBool⟩, validatorFunc⟩)])
    ["testdb", "test_table", "test_data"]).1
    ⟨⟨"testDB.test_table.test_data", "BOOLEAN", reflectBool⟩, validatorFunc⟩ rfl

/-- C19: a node that is not a boolean combination, a comparison or a column reference
is accepted by `recursiveValidation` for every registry, and no check is invoked. -/
theorem recursiveValidation_other_node (p : parser) (node : Node)
    (hbool : ∀ boolop args, node ≠ .BoolExpr boolop args)
    (hcmp : ∀ kind name lexpr rexpr, node ≠ .AExpr kind name lexpr rexpr)
    (hcol : ∀ fields, node ≠ .ColumnRef fields) :
    recursiveValidation p node = ⟨[], none⟩ := by
  cases node with
  | BoolExpr boolop args => exact absurd rfl (hbool boolop args)
  | AExpr kind name lexpr rexpr => exact absurd rfl (hcmp kind name lexpr rexpr)
  | ColumnRef fields => exact absurd rfl (hcol fields)
  | unset => simp only [recursiveValidation]
  | AConst _ => simp only [recursiveValidation]
  | Integer _ => simp only [recursiveValidation]
  | Float _ => simp only [recursiveValidation]
  | String_ _ => simp only [recursiveValidation]
  | Null => simp only [recursiveValidation]
  | AStar => simp only [recursiveValidation]
  | SubLink _ _ _ => simp only [recursiveValidation]
  | other _ _ => simp only [recursiveValidation]

/-- C19 witness: the null test `t.c IS NULL` on a column whose check rejects
everything. -/
theorem recursiveValidation_other_node_witness :
    recursiveValidation
      (NewWhereParser asciiToLower [("t.c", ⟨⟨"t.c", "VARCHAR", reflectString⟩, rejectAll⟩)])
      (.other "NullTest" [.ColumnRef [.String_ "t", .String_ "c"]]) = ⟨[], none⟩ :=
  recursiveValidation_other_node _ _ (by intro boolop args h; cases h)
    (by intro kind name lexpr rexpr h; cases h) (by intro fields h; cases h)

/-- C20: in a plain-operator comparison whose left operand is not a column reference
the resolved name is the empty string, whatever the right operand is; so when no rule
is registered under the empty name the comparison validates and no check is invoked. -/
theorem comparison_left_operand_only (p : parser) (name : List Node)
    (lexpr rexpr : Node) (hleft : ∀ fields, lexpr ≠ .ColumnRef fields) :
    columnPath lexpr.GetColumnRefFields = "" ∧
      (p.validators "" = none →
        recursiveValidation p (.AExpr .AEXPR_OP name lexpr rexpr) = ⟨[], none⟩) := by
  have hfields : lexpr.GetColumnRefFields = [] := by
    cases lexpr with
    | ColumnRef fields => exact absurd rfl (hleft fields)
    | unset => rfl
    | BoolExpr _ _ => rfl
    | AExpr _ _ _ _ => rfl
    | AConst _ => rfl
    | Integer _ => rfl
    | Float _ => rfl
    | String_ _ => rfl
    | Null => rfl
    | AStar => rfl
    | SubLink _ _ _ => rfl
    | other _ _ => rfl
  have hpath : columnPath lexpr.GetColumnRefFields = "" := by
    rw [hfields]
    rfl
  refine ⟨hpath, ?_⟩
  intro hnone
  simp [recursiveValidation, hpath, validateField, hnone]

/-- C20 witness: `5 = t.c` with `t.c` registered under a check that rejects everything:
the comparison validates and the check is not invoked. -/
theorem comparison_left_operand_only_witness :
    recursiveValidation
      (NewWhereParser asciiToLower [("t.c", ⟨⟨"t.c", "VARCHAR", reflectString⟩, rejectAll⟩)])
      (.AExpr .AEXPR_OP [.String_ "="] (.AConst (.Integer 5))
        (.ColumnRef [.String_ "t", .String_ "c"])) = ⟨[], none⟩ :=
  (comparison_left_operand_only
    (NewWhereParser asciiToLower [("t.c", ⟨⟨"t.c", "VARCHAR", reflectString⟩, rejectAll⟩)])
    [.String_ "="] (.AConst (.Integer 5)) (.ColumnRef [.String_ "t", .String_ "c"])
    (by intro fields h; cases h)).2 rfl

/-! ## Theorems: validation of a tree, leaf by leaf -/

/-- A comparison of kind `AEXPR_OP` validates the column path of its left operand with
the observed value of its right operand. -/
theorem recursiveValidation_comparison (p : parser) (name : List Node)
    (lexpr rexpr : Node) :
    recursiveValidation p (.AExpr .AEXPR_OP name lexpr rexpr) =
      validateField p (columnPath lexpr.GetColumnRefFields) (observedValue rexpr) := by
  unfold observedValue
  cases hval : rexpr.GetAConstVal with
  | Integer _ => simp [recursiveValidation, hval]
  | String_ _ => simp [recursiveValidation, hval]
  | unset => simp [recursiveValidation, hval]
  | BoolExpr _ _ => simp [recursiveValidation, hval]
  | AExpr _ _ _ _ => simp [recursiveValidation, hval]
  | ColumnRef _ => simp [recursiveValidation, hval]
  | AConst _ => simp [recursiveValidation, hval]
  | Float _ => simp [recursiveValidation, hval]
  | Null => simp [recursiveValidation, hval]
  | AStar => simp [recursiveValidation, hval]
  | SubLink _ _ _ => simp [recursiveValidation, hval]
  | other _ _ => simp [recursiveValidation, hval]

/-- The call `validateField(field, val)` succeeds exactly when no rule is registered
under `field` or the registered rule's check accepts `val`. -/
theorem validateField_ok_iff (p : parser) (field : String) (val : Value) :
    (validateField p field val).err = none ↔
      ∀ rule, p.validators field = some rule →
        rule.ValidatorFunc rule.ColumnInfo val = none := by
  cases h : p.validators field with
  | none => simp [validateField, h]
  | some rule => simp [validateField, h]

mutual
/-- Every leaf of a tree of the supported sublanguage is a comparison of kind `AEXPR_OP`
or a column reference. -/
theorem leaves_of_filterTree :
    ∀ t : Node, isFilterTree t = true → ∀ leaf ∈ leaves t,
      (∃ name lexpr rexpr, leaf = .AExpr .AEXPR_OP name lexpr rexpr) ∨
        (∃ fields, leaf = .ColumnRef fields)
  | .BoolExpr _ args, h => by
    have ih := leavesArgs_of_filterTrees args (by simpa [isFilterTree] using h)
    simpa only [leaves] using ih
  | .AExpr kind name lexpr rexpr, h => by
    have hk : kind = .AEXPR_OP := by simpa [isFilterTree] using h
    subst hk
    intro leaf hleaf
    have hl : leaf = .AExpr .AEXPR_OP name lexpr rexpr := by simpa [leaves] using hleaf
    exact Or.inl ⟨name, lexpr, rexpr, hl⟩
  | .ColumnRef fields, _ => by
    intro leaf hleaf
    have hl : leaf = .ColumnRef fields := by simpa [leaves] using hleaf
    exact Or.inr ⟨fields, hl⟩
  | .unset, h => by simp [isFilterTree] at h
  | .AConst _, h => by simp [isFilterTree] at h
  | .Integer _, h => by simp [isFilterTree] at h
  | .Float _, h => by simp [isFilterTree] at h
  | .String_ _, h => by simp [isFilterTree] at h
  | .Null, h => by simp [isFilterTree] at h
  | .AStar, h => by simp [isFilterTree] at h
  | .SubLink _ _ _, h => by simp [isFilterTree] at h
  | .other _ _, h => by simp [isFilterTree] at h
/-- Every leaf of a sequence of trees of the supported sublanguage is a comparison of
kind `AEXPR_OP` or a column reference. -/
theorem leavesArgs_of_filterTrees :
    ∀ args : List Node, areFilterTrees args = true → ∀ leaf ∈ leavesArgs args,
      (∃ name lexpr rexpr, leaf = .AExpr .AEXPR_OP name lexpr rexpr) ∨
        (∃ fields, leaf = .ColumnRef fields)
  | [], _ => by simp [leavesArgs]
  | arg :: rest, h => by
    have hboth : isFilterTree arg = true ∧ areFilterTrees rest = true := by
      simpa [areFilterTrees] using h
    have iha := leaves_of_filterTree arg hboth.1
    have ihr := leavesArgs_of_filterTrees rest hboth.2
    intro leaf hleaf
    simp only [leavesArgs, List.mem_append] at hleaf
    rcases hleaf with hl | hl
    · exact iha leaf hl
    · exact ihr leaf hl
end

/-- C5: for every tree built, to any nesting depth, from boolean combinations over
plain-operator comparisons and bare column references, `recursiveValidation` succeeds
if and only if at every comparison leaf the rule registered for its column path (if
any) accepts the observed value of its right operand, and at every column leaf the rule
registered for its path (if any) accepts `true`; a single leaf whose registered check
rejects, anywhere in the tree, makes the whole validation fail. -/
theorem recursiveValidation_succeeds_iff_leaves (p : parser) (t : Node)
    (ht : isFilterTree t = true) :
    ((recursiveValidation p t).err = none ↔
        (∀ name lexpr rexpr rule, Node.AExpr .AEXPR_OP name lexpr rexpr ∈ leaves t →
          p.validators (columnPath lexpr.GetColumnRefFields) = some rule →
          rule.ValidatorFunc rule.ColumnInfo (observedValue rexpr) = none) ∧
        (∀ fields rule, Node.ColumnRef fields ∈ leaves t →
          p.validators (columnPath fields) = some rule →
          rule.ValidatorFunc rule.ColumnInfo (.bool true) = none)) ∧
      (∀ name lexpr rexpr rule err, Node.AExpr .AEXPR_OP name lexpr rexpr ∈ leaves t →
        p.validators (columnPath lexpr.GetColumnRefFields) = some rule →
        rule.ValidatorFunc rule.ColumnInfo (observedValue rexpr) = some err →
        (recursiveValidation p t).err ≠ none) ∧
      (∀ fields rule err, Node.ColumnRef fields ∈ leaves t →
        p.validators (columnPath fields) = some rule →
        rule.ValidatorFunc rule.ColumnInfo (.bool true) = some err →
        (recursiveValidation p t).err ≠ none) := by
  have hiff : (recursiveValidation p t).err = none ↔
      (∀ name lexpr rexpr rule, Node.AExpr .AEXPR_OP name lexpr rexpr ∈ leaves t →
        p.validators (columnPath lexpr.GetColumnRefFields) = some rule →
        rule.ValidatorFunc rule.ColumnInfo (observedValue rexpr) = none) ∧
      (∀ fields rule, Node.ColumnRef fields ∈ leaves t →
        p.validators (columnPath fields) = some rule →
        rule.ValidatorFunc rule.ColumnInfo (.bool true) = none) := by
    rw [recursiveValidation_ok_leaves]
    constructor
    · intro hall
      constructor
      · intro name lexpr rexpr rule hleaf hrule
        have hok := hall _ hleaf
        rw [recursiveValidation_comparison] at hok
        exact (validateField_ok_iff p _ _).mp hok rule hrule
      · intro fields rule hleaf hrule
        have hok := hall _ hleaf
        rw [recursiveValidation_column] at hok
        exact (validateField_ok_iff p _ _).mp hok rule hrule
    · rintro ⟨hcmp, hcol⟩ leaf hleaf
      rcases leaves_of_filterTree t ht leaf hleaf with ⟨name, lexpr, rexpr, hl⟩ | ⟨fields, hl⟩
      · subst hl
        rw [recursiveValidation_comparison]
        exact (validateField_ok_iff p _ _).mpr
          (fun rule hrule => hcmp name lexpr rexpr rule hleaf hrule)
      · subst hl
        rw [recursiveValidation_column]
        exact (validateField_ok_iff p _ _).mpr
          (fun rule hrule => hcol fields rule hleaf hrule)
  refine ⟨hiff, ?_, ?_⟩
  · intro name lexpr rexpr rule err hleaf hrule hrej hok
    have hacc := (hiff.mp hok).1 name lexpr rexpr rule hleaf hrule
    rw [hrej] at hacc
    cases hacc
  · intro fields rule err hleaf hrule hrej hok
    have hacc := (hiff.mp hok).2 fields rule hleaf hrule
    rw [hrej] at hacc
    cases hacc

/-- C5 witness: `a > 1 AND (b = 'x' OR c)`.  With a rejecting rule registered for `c`
only, the innermost, last leaf fails the whole validation; with a rejecting rule
registered for `a` only, the first comparison does. -/
theorem recursiveValidation_succeeds_iff_leaves_witness :
    (recursiveValidation
      (NewWhereParser asciiToLower [("c", ⟨⟨"c", "VARCHAR", 24⟩, rejectAll⟩)])
      (.BoolExpr .AND_EXPR
        [.AExpr .AEXPR_OP [.String_ ">"] (.ColumnRef [.String_ "a"]) (.AConst (.Integer 1)),
          .BoolExpr .OR_EXPR
            [.AExpr .AEXPR_OP [.String_ "="] (.ColumnRef [.String_ "b"])
                (.AConst (.String_ "x")),
              .ColumnRef [.String_ "c"]]])).err ≠ none ∧
      (recursiveValidation
        (NewWhereParser asciiToLower [("a", ⟨⟨"a", "VARCHAR", 24⟩, rejectAll⟩)])
        (.BoolExpr .AND_EXPR
          [.AExpr .AEXPR_OP [.String_ ">"] (.ColumnRef [.String_ "a"])
              (.AConst (.Integer 1)),
            .BoolExpr .OR_EXPR
              [.AExpr .AEXPR_OP [.String_ "="] (.ColumnRef [.String_ "b"])
                  (.AConst (.String_ "x")),
                .ColumnRef [.String_ "c"]]])).err ≠ none :=
  ⟨(recursiveValidation_succeeds_iff_leaves
      (NewWhereParser asciiToLower [("c", ⟨⟨"c", "VARCHAR", 24⟩, rejectAll⟩)])
      (.BoolExpr .AND_EXPR
        [.AExpr .AEXPR_OP [.String_ ">"] (.ColumnRef [.String_ "a"]) (.AConst (.Integer 1)),
          .BoolExpr .OR_EXPR
            [.AExpr .AEXPR_OP [.String_ "="] (.ColumnRef [.String_ "b"])
                (.AConst (.String_ "x")),
              .ColumnRef [.String_ "c"]]])
      rfl).2.2
      [.String_ "c"] ⟨⟨"c", "VARCHAR", 24⟩, rejectAll⟩ "rejected"
      (by simp [leaves, leavesArgs]) rfl rfl,
    (recursiveValidation_succeeds_iff_leaves
      (NewWhereParser asciiToLower [("a", ⟨⟨"a", "VARCHAR", 24⟩, rejectAll⟩)])
      (.BoolExpr .AND_EXPR
        [.AExpr .AEXPR_OP [.String_ ">"] (.ColumnRef [.String_ "a"]) (.AConst (.Integer 1)),
          .BoolExpr .OR_EXPR
            [.AExpr .AEXPR_OP [.String_ "="] (.ColumnRef [.String_ "b"])
                (.AConst (.String_ "x")),
              .ColumnRef [.String_ "c"]]])
      rfl).2.1
      [.String_ ">"] (.ColumnRef [.String_ "a"]) (.AConst (.Integer 1))
      ⟨⟨"a", "VARCHAR", 24⟩, rejectAll⟩ "rejected"
      (by simp [leaves, leavesArgs]) rfl rfl⟩

end Sqlser
